import Mathlib

/-!
Verification development for the AMUSE tutorial notebooks of this
repository (the stellar-evolution, units, N-body and SPH tutorials).
The notebooks are short sequential scripts driving external solvers.
The definitions below embed, statement by statement, the data the
scripts manipulate: unit-tagged quantities, particle collections and
channel copies, the supernova-energy injection of the SPH notebook,
the cumulative mass distribution of `plot_cdf`, and the final SPH
evolution while-loop.  A statement-level transcription of the four
scripts supports the structural properties (exception handlers, solver
lifecycles, effect ordering, disk writes).  Behaviour of the external
framework (units arithmetic, channel-copy semantics) is modelled from
the specification, as noted on each such definition.
-/

namespace AmuseTutorial

/-- Physical dimension of a quantity: exponents of mass (kg), length (m)
and time (s).  Modelled from the spec: the unit-and-quantity wrapper of
the external framework pairs every numeric value with a physical unit
tag; the tag's dimensional content is what compatibility is judged by. -/
structure Dim where
  kg : ℤ
  m : ℤ
  s : ℤ
  deriving DecidableEq

/-- A unit-tagged value.  Modelled from the spec: "every numeric value is
paired with a physical unit tag". -/
structure Quantity where
  val : ℚ
  dim : Dim
  deriving DecidableEq

/-- Addition of quantities.  Modelled from the spec: "arithmetic across
incompatible units must fail"; on equal unit tags the values add. -/
def qadd (a b : Quantity) : Option Quantity :=
  if a.dim = b.dim then some ⟨a.val + b.val, a.dim⟩ else none

/-- Multiplication of quantities: values multiply, unit exponents add. -/
def qmul (a b : Quantity) : Quantity :=
  ⟨a.val * b.val, ⟨a.dim.kg + b.dim.kg, a.dim.m + b.dim.m, a.dim.s + b.dim.s⟩⟩

/-- Division of quantities: values divide, unit exponents subtract. -/
def qdiv (a b : Quantity) : Quantity :=
  ⟨a.val / b.val, ⟨a.dim.kg - b.dim.kg, a.dim.m - b.dim.m, a.dim.s - b.dim.s⟩⟩

/-- `sqrt()` on a quantity: the unit exponents are halved; the numeric
square root of the value is the framework's floating-point `sqrt`,
supplied here as a parameter `sqrtFn`. -/
def qsqrt (sqrtFn : ℚ → ℚ) (a : Quantity) : Option Quantity :=
  if a.dim.kg % 2 = 0 ∧ a.dim.m % 2 = 0 ∧ a.dim.s % 2 = 0 then
    some ⟨sqrtFn a.val, ⟨a.dim.kg / 2, a.dim.m / 2, a.dim.s / 2⟩⟩
  else none

/-- Mass dimension (the tag of `units.MSun`, `units.kg`). -/
def massDim : Dim := ⟨1, 0, 0⟩

/-- Length dimension (the tag of `units.RSun`, `units.m`). -/
def lengthDim : Dim := ⟨0, 1, 0⟩

/-- Speed dimension (the tag of `units.kms`). -/
def speedDim : Dim := ⟨0, 1, -1⟩

/-- `G = 6.67e-11 | units.m**3 * units.kg**-1 * units.s**-2` from the
units notebook. -/
def G : Quantity := ⟨667 / 10 ^ 13, ⟨-1, 3, -2⟩⟩

/-- `mstar = 1 | units.MSun` from the units notebook. -/
def mstar : Quantity := ⟨1, massDim⟩

/-- `rstar = 1 | units.RSun` from the units notebook. -/
def rstar : Quantity := ⟨1, lengthDim⟩

/-- `vesc = (2*G*mstar/rstar).sqrt()` from the units notebook. -/
def vesc (sqrtFn : ℚ → ℚ) : Option Quantity :=
  qsqrt sqrtFn (qdiv (qmul (qmul ⟨2, ⟨0, 0, 0⟩⟩ G) mstar) rstar)

/-- A particle of the in-memory collections built by the notebooks'
initial-condition generators: an identity and mutable attributes
(mass, position, velocity). -/
structure Body where
  id : ℕ
  mass : ℚ
  pos : ℚ × ℚ × ℚ
  vel : ℚ × ℚ × ℚ
  deriving DecidableEq

/-- Modelled from the spec (the channel implementation is external
framework functionality, not present under `src/`): a channel's
`copy()` overwrites, for each particle of the target collection, its
attributes wholesale with the values held by the source (solver-side)
particle of the same identity; particles without a source counterpart
are left as they are. -/
def channel_copy (src tgt : List Body) : List Body :=
  tgt.map fun p =>
    match src.find? (fun q => q.id == p.id) with
    | some q => q
    | none => p

/-- The identity sequence of a particle collection. -/
def idsOf (l : List Body) : List ℕ := l.map (·.id)

/-- The state manipulated by the notebooks' evolution loops: the
solver's internal particle set and the plain in-memory collection. -/
structure SimState where
  solver : List Body
  bodies : List Body

/-- One step of an evolution loop: either the solver advances
(`evolve_model`, updating its internal attributes via some `f`), or the
channel copies the solver state back into the collection. -/
inductive SimStep
  | evolve (f : Body → Body)
  | copyBack

/-- Effect of one step on the simulation state. -/
def applyStep : SimStep → SimState → SimState
  | SimStep.evolve f, st => ⟨st.solver.map f, st.bodies⟩
  | SimStep.copyBack, st => ⟨st.solver, channel_copy st.solver st.bodies⟩

/-- Running a sequence of steps. -/
def runSteps : List SimStep → SimState → SimState
  | [], st => st
  | stp :: rest, st => runSteps rest (applyStep stp st)

/-- A solver's `evolve_model` updates attributes but never the identity
of a particle. -/
def idPreserving : SimStep → Prop
  | SimStep.evolve f => ∀ b, (f b).id = b.id
  | SimStep.copyBack => True

/-- The alignment invariant of the spec: the attribute arrays of the
solver set and of the collection are aligned by particle identity. -/
def aligned (st : SimState) : Prop := idsOf st.solver = idsOf st.bodies

/-- An SPH gas particle of the SPH notebook: mass, specific internal
energy `u`, position and velocity. -/
structure SphParticle where
  mass : ℚ
  u : ℚ
  pos : ℚ × ℚ × ℚ
  vel : ℚ × ℚ × ℚ
  deriving DecidableEq

/-- `pos.length_squared()`. -/
def lengthSq (v : ℚ × ℚ × ℚ) : ℚ := v.1 * v.1 + v.2.1 * v.2.1 + v.2.2 * v.2.2

/-- `total_mass()` of a particle set. -/
def total_mass (l : List SphParticle) : ℚ := (l.map SphParticle.mass).sum

/-- `inject_supernova_energy` from the SPH notebook: select the
particles with `pos.length_squared() < exploding_region**2` and add
`explosion_energy / inner.total_mass()` to the specific internal
energy `u` of each selected particle. -/
def inject_supernova_energy (explosion_energy exploding_region : ℚ)
    (gas_particles : List SphParticle) : List SphParticle :=
  let inner := gas_particles.filter fun p =>
    decide (lengthSq p.pos < exploding_region ^ 2)
  let du := explosion_energy / total_mass inner
  gas_particles.map fun p =>
    if lengthSq p.pos < exploding_region ^ 2 then { p with u := p.u + du }
    else p

/-- The cumulative-sum loop of `plot_cdf`:
`fm = numpy.array([0]); for mi in m: fm = numpy.append(fm, fm[-1] + mi)`,
with `acc` the running last entry (initially `0`). -/
def cdf_accum (acc : ℚ) : List ℚ → List ℚ
  | [] => [acc]
  | x :: xs => acc :: cdf_accum (acc + x) xs

/-- Python's built-in `max` on a list (the empty case never arises:
`fm` always contains its initial `0`). -/
def pymax : List ℚ → ℚ
  | [] => 0
  | x :: xs => xs.foldl max x

/-- The normalized cumulative array `fm` of `plot_cdf`: the masses are
sorted (`m = sorted(...)`), cumulatively summed starting from `0`, and
the array is divided by its maximum (`fm /= max(fm)`). -/
def plot_cdf_fm (m : List ℚ) : List ℚ :=
  let ms := m.insertionSort (· ≤ ·)
  let fm := cdf_accum 0 ms
  fm.map (· / pymax fm)

/-- The final evolution while-loop of the SPH notebook,
`while hydro_code.model_time < 0.3|units.day:
  hydro_code.evolve_model(hydro_code.model_time + (1|units.hour))`,
with model time measured in hours (`0.3 day = 36/5 hours`), under the
precondition — modelled here, stated by the claim — that
`evolve_model(t)` sets `model_time` to the requested `t`, so each
iteration advances the model time by exactly one hour.
`sphLoopCount t` is the number of iterations the loop executes from
model time `t`; the totality of this definition is the loop's
termination. -/
def sphLoopCount (t : ℚ) : ℕ :=
  if h : t < 36 / 5 then sphLoopCount (t + 1) + 1 else 0
termination_by (Int.ceil ((36 : ℚ) / 5 - t)).toNat
decreasing_by
  have h1 : (0 : ℤ) < Int.ceil ((36 : ℚ) / 5 - t) :=
    Int.ceil_pos.mpr (by linarith)
  have h2 : Int.ceil ((36 : ℚ) / 5 - (t + 1)) =
      Int.ceil ((36 : ℚ) / 5 - t) - 1 := by
    have hq : (36 : ℚ) / 5 - (t + 1) = ((36 : ℚ) / 5 - t) - (1 : ℤ) := by
      push_cast; ring
    rw [hq, Int.ceil_sub_int]
  omega

/-- The solver instances constructed anywhere in the notebooks, named as
in the source: `kstellar`/`sstellar` (SeBa), `gravity` (ph4),
`stellar_evolution` (MESA), `hydro_code` (Fi). -/
inductive SolverName
  | kstellar
  | sstellar
  | gravity
  | stellar_evolution
  | hydro_code
  deriving DecidableEq

/-- What a write to persistent storage persists. -/
inductive Payload
  | stellarModel
  | particleCollection
  deriving DecidableEq

/-- Observable events of the scripts' execution. -/
inductive Ev
  | construct (s : SolverName) (withConverter : Bool)
  | addParts (s : SolverName)
  | commitParts (s : SolverName)
  | evolve (s : SolverName)
  | copy (chan : String)
  | diag (what : String)
  | writeDisk (p : Payload)
  | stop (s : SolverName)
  deriving DecidableEq

/-- Statement-level transcription language for the notebook scripts.
`assign` is a pure computation or binding with no solver or storage
effect; `diag` is a print, plot or in-memory diagnostic; `ifCond` marks
a conditionally executed block; `tryExcept` carries the name appearing
in its `except` clause. -/
inductive PyStmt
  | assign (what : String)
  | constructSolver (s : SolverName) (withConverter : Bool)
  | addParticles (s : SolverName)
  | commitParticles (s : SolverName)
  | evolveModel (s : SolverName)
  | channelCopy (chan : String)
  | diag (what : String)
  | writeDisk (p : Payload)
  | stopSolver (s : SolverName)
  | seqS (a b : PyStmt)
  | forLoop (body : PyStmt)
  | whileLoop (body : PyStmt)
  | ifCond (body : PyStmt)
  | tryExcept (body : PyStmt) (excName : String) (handler : PyStmt)

/-- A sequence of statements. -/
def block : List PyStmt → PyStmt
  | [] => PyStmt.assign "pass"
  | [s] => s
  | s :: rest => PyStmt.seqS s (block rest)

/-- The events a statement contributes, in source order; a loop body is
listed once, a conditional and a handler body are listed where they
would run. -/
def stmtTrace : PyStmt → List Ev
  | PyStmt.assign _ => []
  | PyStmt.constructSolver s c => [Ev.construct s c]
  | PyStmt.addParticles s => [Ev.addParts s]
  | PyStmt.commitParticles s => [Ev.commitParts s]
  | PyStmt.evolveModel s => [Ev.evolve s]
  | PyStmt.channelCopy c => [Ev.copy c]
  | PyStmt.diag w => [Ev.diag w]
  | PyStmt.writeDisk p => [Ev.writeDisk p]
  | PyStmt.stopSolver s => [Ev.stop s]
  | PyStmt.seqS a b => stmtTrace a ++ stmtTrace b
  | PyStmt.forLoop b => stmtTrace b
  | PyStmt.whileLoop b => stmtTrace b
  | PyStmt.ifCond b => stmtTrace b
  | PyStmt.tryExcept b _ h => stmtTrace b ++ stmtTrace h

/-- Number of `except` handlers appearing in a statement. -/
def countHandlers : PyStmt → ℕ
  | PyStmt.seqS a b => countHandlers a + countHandlers b
  | PyStmt.forLoop b => countHandlers b
  | PyStmt.whileLoop b => countHandlers b
  | PyStmt.ifCond b => countHandlers b
  | PyStmt.tryExcept b _ h => countHandlers b + countHandlers h + 1
  | _ => 0

/-- The solver an event belongs to, if any. -/
def evSolver : Ev → Option SolverName
  | Ev.construct s _ => some s
  | Ev.addParts s => some s
  | Ev.commitParts s => some s
  | Ev.evolve s => some s
  | Ev.stop s => some s
  | _ => none

/-- The units tutorial notebook (escape-speed cells): pure quantity
arithmetic and prints, no solver. -/
def unitsScript : PyStmt := block
  [PyStmt.assign "mstar rstar",
   PyStmt.assign "G; vesc = (2*G*mstar/rstar).sqrt()",
   PyStmt.diag "print vesc",
   PyStmt.assign "units_G; G; vesc",
   PyStmt.diag "print vesc in kms",
   PyStmt.assign "G from constants; vesc",
   PyStmt.diag "print vesc in kms"]

/-- Body of the time loop of the stellar-evolution tutorial
(`for time in times:`): advance each SeBa instance, copy its state back
through its `to_stars` channel, then record the mean-mass ratio. -/
def stellarLoopBody : PyStmt := block
  [PyStmt.evolveModel SolverName.kstellar,
   PyStmt.channelCopy "kchannels to_stars",
   PyStmt.evolveModel SolverName.sstellar,
   PyStmt.channelCopy "schannels to_stars",
   PyStmt.diag "mmean append mean mass ratio"]

/-- The stellar-evolution tutorial notebook: Kroupa and Salpeter
populations, two SeBa instances (via `start_stellar_code`, which
constructs `SeBa()` with no converter argument, adds the particles and
opens the channels), the time loop, the stops, and the plots. -/
def stellarScript : PyStmt := block
  [PyStmt.assign "imports; n_stars mmin mmax",
   PyStmt.assign "mkroupa; k_stars = Particles(mass=mkroupa)",
   PyStmt.assign "msalpeter; s_stars = Particles(mass=msalpeter)",
   PyStmt.diag "print mean masses",
   PyStmt.diag "histograms of the two IMFs",
   PyStmt.constructSolver SolverName.kstellar false,
   PyStmt.addParticles SolverName.kstellar,
   PyStmt.assign "kchannels",
   PyStmt.constructSolver SolverName.sstellar false,
   PyStmt.addParticles SolverName.sstellar,
   PyStmt.assign "schannels",
   PyStmt.assign "times",
   PyStmt.forLoop stellarLoopBody,
   PyStmt.stopSolver SolverName.kstellar,
   PyStmt.stopSolver SolverName.sstellar,
   PyStmt.diag "print mean masses",
   PyStmt.diag "plot relative mean mass",
   PyStmt.diag "HR-diagram scatter"]

/-- Body of the N-body evolution loop (`for time in times:` in the
N-body tutorial): advance `gravity`, copy through the channel, then
the diagnostics of that iteration. -/
def nbodyLoopBody : PyStmt := block
  [PyStmt.evolveModel SolverName.gravity,
   PyStmt.channelCopy "channel",
   PyStmt.diag "Rvir append virial_radius",
   PyStmt.diag "LagrangianRadii",
   PyStmt.diag "RL25 append LagrangianRadii 25 percent",
   PyStmt.ifCond (PyStmt.diag "print cluster status"),
   PyStmt.diag "get_binaries",
   PyStmt.ifCond (PyStmt.diag "print binaries")]

/-- The N-body tutorial notebook: initial conditions, `ph4(converter)`,
particles handed over, the channel, the time loop, the final plot.
No `stop` call appears in this script. -/
def nbodyScript : PyStmt := block
  [PyStmt.assign "imports; n_stars alpha_IMF; m_stars powerlaw",
   PyStmt.diag "plot_cdf",
   PyStmt.assign "r_cluster; converter; bodies new_king_model",
   PyStmt.assign "bodies scale_to_standard",
   PyStmt.diag "plot_snapshot",
   PyStmt.constructSolver SolverName.gravity true,
   PyStmt.addParticles SolverName.gravity,
   PyStmt.assign "channel",
   PyStmt.assign "times RL25 Rvir",
   PyStmt.forLoop nbodyLoopBody,
   PyStmt.diag "plot RL25 and Rvir"]

/-- Body of the `while stellar_evolution.model_time < 0.12 Myr` loop
inside `setup_stellar_evolution_model`. -/
def mesaLoopBody : PyStmt := block
  [PyStmt.evolveModel SolverName.stellar_evolution,
   PyStmt.diag "print stellar type and model time"]

/-- `setup_stellar_evolution_model` from the SPH notebook: MESA is
constructed (with `redirection` only, no converter), the star is added
and committed, the evolution loop runs inside the sole try/except of
the source (whose `except` clause names `AmuseException`), then the
stellar structure is pickled and MESA stopped. -/
def setupStellarAst : PyStmt := block
  [PyStmt.assign "out_pickle_file",
   PyStmt.constructSolver SolverName.stellar_evolution false,
   PyStmt.assign "stars = Particles(1); stars.mass = 15 MSun",
   PyStmt.addParticles SolverName.stellar_evolution,
   PyStmt.commitParticles SolverName.stellar_evolution,
   PyStmt.diag "print evolving a MESA star",
   PyStmt.tryExcept (PyStmt.whileLoop mesaLoopBody) "AmuseException"
     (block [PyStmt.diag "print evolved star age",
             PyStmt.diag "print radius"]),
   PyStmt.writeDisk Payload.stellarModel,
   PyStmt.stopSolver SolverName.stellar_evolution]

/-- Body of the final SPH while-loop. -/
def sphLoopBody : PyStmt := block
  [PyStmt.evolveModel SolverName.hydro_code,
   PyStmt.diag "print model time",
   PyStmt.diag "hydro_plot"]

/-- The SPH tutorial notebook: the stellar-evolution setup, conversion
to SPH particles, energy injection, `Fi(converter)`, the staged
evolution calls, the final while-loop, and the stop. -/
def sphScript : PyStmt := block
  [PyStmt.assign "imports",
   setupStellarAst,
   PyStmt.diag "print star generated",
   PyStmt.assign "model = convert_stellar_model_to_SPH; core gas core_radius",
   PyStmt.diag "print created SPH particles",
   PyStmt.diag "plot_star",
   PyStmt.assign "inject_supernova_energy on gas_without_core",
   PyStmt.diag "print innermost particles and energy",
   PyStmt.assign "converter",
   PyStmt.constructSolver SolverName.hydro_code true,
   PyStmt.assign "hydro_code parameters",
   PyStmt.addParticles SolverName.hydro_code,
   PyStmt.addParticles SolverName.hydro_code,
   PyStmt.evolveModel SolverName.hydro_code,
   PyStmt.diag "print model time",
   PyStmt.diag "hydro_plot",
   PyStmt.evolveModel SolverName.hydro_code,
   PyStmt.diag "print model time",
   PyStmt.diag "hydro_plot",
   PyStmt.diag "print core velocity and position",
   PyStmt.evolveModel SolverName.hydro_code,
   PyStmt.diag "print model time",
   PyStmt.diag "hydro_plot",
   PyStmt.whileLoop sphLoopBody,
   PyStmt.diag "print core velocity and position",
   PyStmt.stopSolver SolverName.hydro_code]

/-- The combined event trace of the four notebooks. -/
def allScriptsTrace : List Ev :=
  stmtTrace unitsScript ++ stmtTrace stellarScript ++
    stmtTrace nbodyScript ++ stmtTrace sphScript

/-- The lifecycle events of one solver instance across the notebooks. -/
def solverEvents (s : SolverName) : List Ev :=
  allScriptsTrace.filter fun e => evSolver e == some s

/-- Payloads of all writes to persistent storage in the notebooks. -/
def diskPayloads : List Payload :=
  allScriptsTrace.filterMap fun e =>
    match e with
    | Ev.writeDisk p => some p
    | _ => none

/-- The lifecycle pattern asserted by the claim: construct with a unit
converter, add particles, advance to a target time, stop. -/
def claimedLifecycle (s : SolverName) (a e : ℕ) : List Ev :=
  Ev.construct s true ::
    (List.replicate a (Ev.addParts s) ++ List.replicate e (Ev.evolve s) ++
      [Ev.stop s])

/-- The trace of `n` executed iterations of a loop body. -/
def unrollTrace (n : ℕ) (body : PyStmt) : List Ev :=
  (List.replicate n (stmtTrace body)).flatten

/-- A Python exception value, as far as the embedding needs it. -/
inductive PyExc
  | nameError (n : String)
  deriving DecidableEq

/-- Outcome of the `while` loop inside `setup_stellar_evolution_model`. -/
inductive LoopOut
  | completed
  | raised
  | fuelOut
  deriving DecidableEq

/-- The `while stellar_evolution.model_time < 0.12|units.Myr:` loop,
with the solver's behaviour supplied as an oracle: `evo k = some t2`
means the `k`-th `evolve_model()` call returns with new model time `t2`
(in Myr), `evo k = none` means that call raises an `AmuseException`.
`fuel` bounds how many iterations are examined. -/
def evolveLoop (evo : ℕ → Option ℚ) : ℕ → ℕ → ℚ → LoopOut
  | 0, _, _ => LoopOut.fuelOut
  | fuel + 1, k, t =>
    if t < 12 / 100 then
      match evo k with
      | some t2 => evolveLoop evo fuel (k + 1) t2
      | none => LoopOut.raised
    else LoopOut.completed

/-- Outcome of a call of `setup_stellar_evolution_model`. -/
inductive FnOutcome
  | returnsPath (path : String)
  | uncaught (e : PyExc)
  | fuelOut
  deriving DecidableEq

/-- The names bound in the SPH notebook's global namespace when
`setup_stellar_evolution_model` runs: the `import` lines of its first
cells and the function itself.  `AmuseException` is not among them —
no import statement of the notebook binds it. -/
def sphNotebookNames : List String :=
  ["os", "numpy", "pyplot", "units", "pickle_stellar_model",
   "convert_stellar_model_to_SPH", "get_path_to_results", "MESA",
   "Particles", "setup_stellar_evolution_model"]

/-- `setup_stellar_evolution_model`, with Python's handling of the
`except AmuseException as ex:` clause made explicit: when the try body
raises, Python evaluates the name written in the `except` clause in the
enclosing namespace; if that name is unbound, the lookup itself raises
a `NameError`, which replaces the original exception and propagates out
of the function, so the `pickle_stellar_model` call and the `return`
are never reached.  If the name is bound (to the framework's exception
class), the handler prints and the function falls through to pickling
the last valid state and returning the pickle-file path. -/
def setup_stellar_evolution_model (names : List String)
    (evo : ℕ → Option ℚ) (fuel : ℕ) : FnOutcome :=
  match evolveLoop evo fuel 0 0 with
  | LoopOut.completed =>
    FnOutcome.returnsPath "super_giant_stellar_structure.pkl"
  | LoopOut.raised =>
    if names.contains "AmuseException" then
      FnOutcome.returnsPath "super_giant_stellar_structure.pkl"
    else FnOutcome.uncaught (PyExc.nameError "AmuseException")
  | LoopOut.fuelOut => FnOutcome.fuelOut

/-- Two SPH particles used to evaluate the energy injection on concrete
data: one inside the exploding region, one outside. -/
def wGas : List SphParticle :=
  [⟨1, 0, (0, 0, 0), (0, 0, 0)⟩, ⟨1, 0, (2, 0, 0), (0, 0, 0)⟩]

/-- A concrete solver-side particle set for evaluating the channel copy. -/
def wBodySrc : List Body :=
  [⟨0, 5, (1, 1, 1), (0, 0, 0)⟩, ⟨1, 7, (2, 2, 2), (1, 0, 0)⟩]

/-- A concrete in-memory collection for evaluating the channel copy. -/
def wBodyTgt : List Body :=
  [⟨0, 3, (0, 0, 0), (0, 0, 0)⟩, ⟨1, 4, (0, 0, 0), (0, 0, 0)⟩]

lemma cdf_accum_ne_nil (acc : ℚ) (l : List ℚ) : cdf_accum acc l ≠ [] := by
  cases l <;> simp [cdf_accum]

lemma cdf_accum_head (acc : ℚ) (l : List ℚ) :
    (cdf_accum acc l).head? = some acc := by
  cases l <;> simp [cdf_accum]

lemma cdf_accum_getLast (acc : ℚ) (l : List ℚ) :
    (cdf_accum acc l).getLast? = some (acc + l.sum) := by
  induction l generalizing acc with
  | nil => simp [cdf_accum]
  | cons x xs ih =>
    rw [cdf_accum]
    rcases hx : cdf_accum (acc + x) xs with _ | ⟨y, ys⟩
    · exact absurd hx (cdf_accum_ne_nil _ _)
    · rw [List.getLast?_cons_cons, ← hx, ih (acc + x), List.sum_cons]
      ring_nf

lemma cdf_accum_mem_bounds (acc : ℚ) (l : List ℚ)
    (hnn : ∀ x ∈ l, 0 ≤ x) :
    ∀ y ∈ cdf_accum acc l, acc ≤ y ∧ y ≤ acc + l.sum := by
  induction l generalizing acc with
  | nil =>
    intro y hy
    simp only [cdf_accum, List.mem_singleton] at hy
    simp [hy]
  | cons x xs ih =>
    intro y hy
    rw [cdf_accum] at hy
    have hx0 : 0 ≤ x := hnn x (by simp)
    have hxs : ∀ z ∈ xs, 0 ≤ z := fun z hz => hnn z (by simp [hz])
    have hsum : 0 ≤ xs.sum := List.sum_nonneg hxs
    rcases List.mem_cons.mp hy with h | h
    · subst h
      refine ⟨le_refl _, ?_⟩
      rw [List.sum_cons]
      linarith
    · have hb := ih (acc + x) hxs y h
      rw [List.sum_cons]
      constructor <;> linarith [hb.1, hb.2]

lemma cdf_accum_chain (acc : ℚ) (l : List ℚ) (hnn : ∀ x ∈ l, 0 ≤ x) :
    List.Chain' (· ≤ ·) (cdf_accum acc l) := by
  induction l generalizing acc with
  | nil => simp [cdf_accum]
  | cons x xs ih =>
    rw [cdf_accum, List.chain'_cons']
    constructor
    · intro b hb
      rw [cdf_accum_head] at hb
      simp only [Option.mem_def, Option.some.injEq] at hb
      have hx0 : 0 ≤ x := hnn x (by simp)
      rw [← hb]
      linarith
    · exact ih (acc + x) (fun z hz => hnn z (by simp [hz]))

lemma foldl_max_le (x : ℚ) (xs : List ℚ) :
    x ≤ xs.foldl max x ∧ ∀ y ∈ xs, y ≤ xs.foldl max x := by
  induction xs generalizing x with
  | nil => simp
  | cons y ys ih =>
    have h := ih (max x y)
    refine ⟨le_trans (le_max_left x y) h.1, ?_⟩
    intro z hz
    rcases List.mem_cons.mp hz with rfl | hz2
    · exact le_trans (le_max_right x z) h.1
    · exact h.2 z hz2

lemma foldl_max_mem (x : ℚ) (xs : List ℚ) : xs.foldl max x ∈ x :: xs := by
  induction xs generalizing x with
  | nil => simp
  | cons y ys ih =>
    have h := ih (max x y)
    rcases List.mem_cons.mp h with h1 | h1
    · rcases max_choice x y with hc | hc
      · rw [List.foldl_cons, h1, hc]
        exact List.mem_cons_self _ _
      · rw [List.foldl_cons, h1, hc]
        exact List.mem_cons_of_mem _ (List.mem_cons_self _ _)
    · exact List.mem_cons_of_mem _ (List.mem_cons_of_mem _ h1)

lemma le_pymax (l : List ℚ) : ∀ y ∈ l, y ≤ pymax l := by
  intro y hy
  cases l with
  | nil => simp at hy
  | cons x xs =>
    rcases List.mem_cons.mp hy with rfl | hy2
    · exact (foldl_max_le y xs).1
    · exact (foldl_max_le x xs).2 y hy2

lemma pymax_mem (l : List ℚ) (h : l ≠ []) : pymax l ∈ l := by
  cases l with
  | nil => exact absurd rfl h
  | cons x xs => exact foldl_max_mem x xs

lemma flatten_replicate_getElem {α : Type} (l : List α) :
    ∀ (i n j : ℕ), i < n → j < l.length →
      ((List.replicate n l).flatten)[l.length * i + j]? = l[j]? := by
  intro i
  induction i with
  | zero =>
    intro n j hi hj
    cases n with
    | zero => omega
    | succ m =>
      rw [List.replicate_succ, List.flatten_cons]
      rw [show l.length * 0 + j = j by ring]
      exact List.getElem?_append_left hj
  | succ i ih =>
    intro n j hi hj
    cases n with
    | zero => omega
    | succ m =>
      rw [List.replicate_succ, List.flatten_cons]
      rw [show l.length * (i + 1) + j = l.length + (l.length * i + j) by ring]
      rw [List.getElem?_append_right (Nat.le_add_right _ _)]
      rw [Nat.add_sub_cancel_left]
      exact ih m j (by omega) hj

lemma sphLoopCount_formula : ∀ (n : ℕ) (t : ℚ),
    (Int.ceil ((36 : ℚ) / 5 - t)).toNat = n → sphLoopCount t = n := by
  intro n
  induction n with
  | zero =>
    intro t ht
    have hc : Int.ceil ((36 : ℚ) / 5 - t) ≤ 0 := by omega
    have hle : (36 : ℚ) / 5 - t ≤ ((0 : ℤ) : ℚ) := Int.ceil_le.mp hc
    rw [sphLoopCount, dif_neg (by push_cast at hle; linarith)]
  | succ k ih =>
    intro t ht
    have hpos : (0 : ℤ) < Int.ceil ((36 : ℚ) / 5 - t) := by omega
    have hlt : t < 36 / 5 := by
      have := Int.ceil_pos.mp hpos
      linarith
    have hnext : (Int.ceil ((36 : ℚ) / 5 - (t + 1))).toNat = k := by
      have hq : (36 : ℚ) / 5 - (t + 1) = ((36 : ℚ) / 5 - t) - (1 : ℤ) := by
        push_cast; ring
      rw [hq, Int.ceil_sub_int]
      omega
    rw [sphLoopCount, dif_pos hlt, ih _ hnext]

/-- C1: the four notebooks contain exactly one exception handler — the
try/except around MESA's `evolve_model` loop in
`setup_stellar_evolution_model` — but its `except` clause names
`AmuseException`, a name no import of the SPH notebook binds; evaluated
at the failing input where the first `evolve_model()` call raises an
`AmuseException`, the handler does not catch the exception: the name
lookup raises a `NameError` which propagates, and the function neither
pickles the last valid state nor returns the pickle-file path, contrary
to the claim (and to the notebook's own stated goal of recovering the
crash of the code and picking up the result). -/
theorem single_handler_fails_to_catch :
    countHandlers unitsScript + countHandlers stellarScript +
        countHandlers nbodyScript + countHandlers sphScript = 1
    ∧ sphNotebookNames.contains "AmuseException" = false
    ∧ setup_stellar_evolution_model sphNotebookNames (fun _ => none) 1000 =
        FnOutcome.uncaught (PyExc.nameError "AmuseException")
    ∧ setup_stellar_evolution_model sphNotebookNames (fun _ => none) 1000 ≠
        FnOutcome.returnsPath "super_giant_stellar_structure.pkl" := by
  have hno : ¬ (sphNotebookNames.contains "AmuseException" = true) := by decide
  have h1 : evolveLoop (fun _ => none) 1000 0 0 = LoopOut.raised := by
    show evolveLoop (fun _ => none) (999 + 1) 0 0 = LoopOut.raised
    simp only [evolveLoop]
    norm_num
  have hmain : setup_stellar_evolution_model sphNotebookNames
      (fun _ => none) 1000 =
      FnOutcome.uncaught (PyExc.nameError "AmuseException") := by
    unfold setup_stellar_evolution_model
    rw [h1]
    simp only [if_neg hno]
  refine ⟨by decide, by decide, hmain, by rw [hmain]; decide⟩

/-- C2 fails as stated: the SeBa instance `kstellar` is constructed by
`SeBa()` with no unit-converter argument, so its lifecycle does not
match the claimed pattern (construct with a unit converter, add
particles, advance, stop) for any number of add or advance steps. -/
theorem lifecycle_claim_counterexample :
    ¬ ∃ a e : ℕ, solverEvents SolverName.kstellar =
        claimedLifecycle SolverName.kstellar a e := by
  rintro ⟨a, e, h⟩
  have h0 := congrArg List.head? h
  have hev : (solverEvents SolverName.kstellar).head? =
      some (Ev.construct SolverName.kstellar false) := by decide
  rw [hev] at h0
  simp [claimedLifecycle] at h0

/-- C2 (amended): every solver instance follows the order construct,
add particles (plus `commit_particles` for MESA), advance
(`evolve_model`), then stop where a stop exists — but only ph4
(`gravity`) and Fi (`hydro_code`) are constructed with a unit
converter; SeBa (`kstellar`, `sstellar`) and MESA
(`stellar_evolution`) are constructed without one, and `gravity` is
never stopped. -/
theorem solver_lifecycles :
    solverEvents SolverName.kstellar =
      [Ev.construct SolverName.kstellar false,
       Ev.addParts SolverName.kstellar,
       Ev.evolve SolverName.kstellar, Ev.stop SolverName.kstellar]
    ∧ solverEvents SolverName.sstellar =
      [Ev.construct SolverName.sstellar false,
       Ev.addParts SolverName.sstellar,
       Ev.evolve SolverName.sstellar, Ev.stop SolverName.sstellar]
    ∧ solverEvents SolverName.gravity =
      [Ev.construct SolverName.gravity true,
       Ev.addParts SolverName.gravity, Ev.evolve SolverName.gravity]
    ∧ solverEvents SolverName.stellar_evolution =
      [Ev.construct SolverName.stellar_evolution false,
       Ev.addParts SolverName.stellar_evolution,
       Ev.commitParts SolverName.stellar_evolution,
       Ev.evolve SolverName.stellar_evolution,
       Ev.stop SolverName.stellar_evolution]
    ∧ solverEvents SolverName.hydro_code =
      [Ev.construct SolverName.hydro_code true,
       Ev.addParts SolverName.hydro_code,
       Ev.addParts SolverName.hydro_code,
       Ev.evolve SolverName.hydro_code, Ev.evolve SolverName.hydro_code,
       Ev.evolve SolverName.hydro_code, Ev.evolve SolverName.hydro_code,
       Ev.stop SolverName.hydro_code] := by
  refine ⟨by decide, by decide, by decide, by decide, by decide⟩

/-- C3: quantity addition fails for every pair with dimensionally
incompatible unit tags and succeeds for every compatible pair, and the
escape-speed computation `(2*G*mstar/rstar).sqrt()` of the units
notebook succeeds and carries the speed unit tag, whatever the numeric
square root `f` computes. -/
theorem units_arithmetic (a b : Quantity) (hne : a.dim ≠ b.dim) :
    qadd a b = none
    ∧ (∀ c d : Quantity, c.dim = d.dim → (qadd c d).isSome = true)
    ∧ ∀ f : ℚ → ℚ, (vesc f).map Quantity.dim = some speedDim := by
  refine ⟨?_, ?_, ?_⟩
  · unfold qadd
    rw [if_neg hne]
  · intro c d h
    unfold qadd
    rw [if_pos h]
    rfl
  · intro f
    rfl

/-- Witness for C3 at concrete inputs: adding a mass to a length fails,
and the concrete escape-speed expression carries the speed tag. -/
theorem units_arithmetic_witness :
    qadd ⟨1, massDim⟩ ⟨1, lengthDim⟩ = none
    ∧ (vesc id).map Quantity.dim = some speedDim :=
  ⟨(units_arithmetic ⟨1, massDim⟩ ⟨1, lengthDim⟩ (by decide)).1,
   (units_arithmetic ⟨1, massDim⟩ ⟨1, lengthDim⟩ (by decide)).2.2 id⟩

/-- C4: after a channel `copy()` from the solver's particle set into
the collection, each particle of the collection is overwritten
wholesale with the solver's particle of the same identity (assuming,
as the framework's data-exchange layer guarantees, that every
collection particle has a solver counterpart). -/
theorem channel_copy_overwrites (src tgt : List Body)
    (hcov : ∀ p ∈ tgt, ∃ q ∈ src, q.id = p.id) :
    (channel_copy src tgt).length = tgt.length
    ∧ ∀ (i : ℕ) (p : Body), tgt[i]? = some p →
        ∃ q, q ∈ src ∧ q.id = p.id ∧ (channel_copy src tgt)[i]? = some q := by
  constructor
  · simp [channel_copy]
  · intro i p hp
    have hpmem : p ∈ tgt := by
      obtain ⟨hlt, heq⟩ := List.getElem?_eq_some_iff.mp hp
      rw [← heq]
      exact List.getElem_mem hlt
    obtain ⟨q, hq, hqid⟩ := hcov p hpmem
    have hfind : (src.find? fun r => r.id == p.id).isSome := by
      rw [List.find?_isSome]
      exact ⟨q, hq, by simp [hqid]⟩
    obtain ⟨q0, hq0⟩ := Option.isSome_iff_exists.mp hfind
    refine ⟨q0, List.mem_of_find?_eq_some hq0, ?_, ?_⟩
    · have := List.find?_some hq0
      simpa using this
    · simp only [channel_copy, List.getElem?_map, hp, Option.map_some']
      rw [hq0]

/-- Witness for C4 on concrete particle sets. -/
theorem channel_copy_overwrites_witness :
    (channel_copy wBodySrc wBodyTgt).length = wBodyTgt.length :=
  (channel_copy_overwrites wBodySrc wBodyTgt (by decide)).1

/-- C5: a channel copy preserves the number of particles and their
identity ordering, and alignment by identity of the solver set and
the collection is invariant under every sequence of evolution-loop
steps (solver advances preserving identities, channel copies). -/
theorem alignment_invariant :
    (∀ src tgt : List Body,
      (channel_copy src tgt).length = tgt.length
      ∧ idsOf (channel_copy src tgt) = idsOf tgt)
    ∧ ∀ steps : List SimStep, ∀ st : SimState,
        (∀ s ∈ steps, idPreserving s) → aligned st →
          aligned (runSteps steps st) := by
  have hcc : ∀ src tgt : List Body,
      idsOf (channel_copy src tgt) = idsOf tgt := by
    intro src tgt
    unfold idsOf channel_copy
    rw [List.map_map]
    apply List.map_congr_left
    intro p _
    simp only [Function.comp_apply]
    rcases hfind : src.find? (fun q => q.id == p.id) with _ | q
    · simp only [hfind]
    · have hq := List.find?_some hfind
      simp only [hfind]
      simpa using hq
  constructor
  · intro src tgt
    exact ⟨by simp [channel_copy], hcc src tgt⟩
  · intro steps
    induction steps with
    | nil => intro st _ h; exact h
    | cons s rest ih =>
      intro st hpres hal
      apply ih
      · intro x hx
        exact hpres x (List.mem_cons_of_mem _ hx)
      · have hs := hpres s (List.mem_cons_self _ _)
        cases s with
        | evolve f =>
          have hmap : idsOf (st.solver.map f) = idsOf st.solver := by
            unfold idsOf
            rw [List.map_map]
            apply List.map_congr_left
            intro b _
            simp only [Function.comp_apply]
            exact hs b
          show idsOf (st.solver.map f) = idsOf st.bodies
          rw [hmap]
          exact hal
        | copyBack =>
          show idsOf st.solver = idsOf (channel_copy st.solver st.bodies)
          rw [hcc]
          exact hal

/-- Witness for C5: one concrete copy step on aligned sets. -/
theorem alignment_invariant_witness :
    aligned (runSteps [SimStep.copyBack] ⟨wBodySrc, wBodyTgt⟩) :=
  alignment_invariant.2 [SimStep.copyBack] ⟨wBodySrc, wBodyTgt⟩
    (by
      intro s hs
      rw [List.mem_singleton.mp hs]
      exact trivial)
    rfl

/-- C6: execution is sequential — in every iteration `i` of the N-body
and stellar-evolution loops the `evolve_model` event precedes the
channel-copy event of that iteration, which precedes every diagnostic
event of that iteration, at fixed offsets inside the unrolled trace;
the N-body script as a whole is the linear sequence build initial
conditions, construct and feed the solver, loop (advance, copy,
diagnose), then plot. -/
theorem loop_iteration_order (n i : ℕ) (hi : i < n) :
    (unrollTrace n nbodyLoopBody)[8 * i]? =
        some (Ev.evolve SolverName.gravity)
    ∧ (unrollTrace n nbodyLoopBody)[8 * i + 1]? = some (Ev.copy "channel")
    ∧ (∀ j, 2 ≤ j → j < 8 →
        ∃ d, (unrollTrace n nbodyLoopBody)[8 * i + j]? = some (Ev.diag d))
    ∧ (unrollTrace n stellarLoopBody)[5 * i]? =
        some (Ev.evolve SolverName.kstellar)
    ∧ (unrollTrace n stellarLoopBody)[5 * i + 1]? =
        some (Ev.copy "kchannels to_stars")
    ∧ (unrollTrace n stellarLoopBody)[5 * i + 2]? =
        some (Ev.evolve SolverName.sstellar)
    ∧ (unrollTrace n stellarLoopBody)[5 * i + 3]? =
        some (Ev.copy "schannels to_stars")
    ∧ (unrollTrace n stellarLoopBody)[5 * i + 4]? =
        some (Ev.diag "mmean append mean mass ratio")
    ∧ stmtTrace nbodyScript =
      [Ev.diag "plot_cdf", Ev.diag "plot_snapshot",
       Ev.construct SolverName.gravity true,
       Ev.addParts SolverName.gravity,
       Ev.evolve SolverName.gravity, Ev.copy "channel",
       Ev.diag "Rvir append virial_radius", Ev.diag "LagrangianRadii",
       Ev.diag "RL25 append LagrangianRadii 25 percent",
       Ev.diag "print cluster status", Ev.diag "get_binaries",
       Ev.diag "print binaries", Ev.diag "plot RL25 and Rvir"] := by
  have hnb : (stmtTrace nbodyLoopBody).length = 8 := by decide
  have hst : (stmtTrace stellarLoopBody).length = 5 := by decide
  have key8 : ∀ j, j < 8 →
      (unrollTrace n nbodyLoopBody)[8 * i + j]? =
        (stmtTrace nbodyLoopBody)[j]? := by
    intro j hj
    have h := flatten_replicate_getElem (stmtTrace nbodyLoopBody) i n j hi
      (by rw [hnb]; exact hj)
    rwa [hnb] at h
  have key5 : ∀ j, j < 5 →
      (unrollTrace n stellarLoopBody)[5 * i + j]? =
        (stmtTrace stellarLoopBody)[j]? := by
    intro j hj
    have h := flatten_replicate_getElem (stmtTrace stellarLoopBody) i n j hi
      (by rw [hst]; exact hj)
    rwa [hst] at h
  refine ⟨?_, ?_, ?_, ?_, ?_, ?_, ?_, ?_, by decide⟩
  · have h := key8 0 (by norm_num)
    rw [Nat.add_zero] at h
    rw [h]; decide
  · rw [key8 1 (by norm_num)]; decide
  · intro j h2 h8
    interval_cases j
    · rw [key8 2 (by norm_num)]
      exact ⟨"Rvir append virial_radius", by decide⟩
    · rw [key8 3 (by norm_num)]
      exact ⟨"LagrangianRadii", by decide⟩
    · rw [key8 4 (by norm_num)]
      exact ⟨"RL25 append LagrangianRadii 25 percent", by decide⟩
    · rw [key8 5 (by norm_num)]
      exact ⟨"print cluster status", by decide⟩
    · rw [key8 6 (by norm_num)]
      exact ⟨"get_binaries", by decide⟩
    · rw [key8 7 (by norm_num)]
      exact ⟨"print binaries", by decide⟩
  · have h := key5 0 (by norm_num)
    rw [Nat.add_zero] at h
    rw [h]; decide
  · rw [key5 1 (by norm_num)]; decide
  · rw [key5 2 (by norm_num)]; decide
  · rw [key5 3 (by norm_num)]; decide
  · rw [key5 4 (by norm_num)]; decide

/-- Witness for C6 at the first iteration of a one-iteration unroll. -/
theorem loop_iteration_order_witness :
    (unrollTrace 1 nbodyLoopBody)[0]? =
      some (Ev.evolve SolverName.gravity) := by
  have h := (loop_iteration_order 1 0 (by norm_num)).1
  simpa using h

/-- C7: across all four notebooks exactly one write to persistent
storage occurs — the pickled stellar-structure model of
`setup_stellar_evolution_model` — and no particle collection is ever
written to disk (so every particle collection is discarded at process
exit). -/
theorem persistent_writes_only_stellar_pickle :
    diskPayloads = [Payload.stellarModel]
    ∧ Payload.particleCollection ∉ diskPayloads := by
  refine ⟨by decide, by decide⟩

/-- C8: `inject_supernova_energy` adds exactly
`explosion_energy / inner.total_mass()` to the specific internal energy
`u` of exactly the particles with `pos.length_squared()` strictly below
`exploding_region**2`, leaving every other attribute and every
unselected particle unchanged; with at least one particle inside the
region and positive masses, the selected total mass is positive, so the
division is well defined. -/
theorem inject_supernova_energy_frame (E R : ℚ) (gas : List SphParticle)
    (hin : ∃ p ∈ gas, lengthSq p.pos < R ^ 2)
    (hm : ∀ p ∈ gas, 0 < p.mass) :
    0 < total_mass (gas.filter fun p => decide (lengthSq p.pos < R ^ 2))
    ∧ (inject_supernova_energy E R gas).length = gas.length
    ∧ ∀ (i : ℕ) (p : SphParticle), gas[i]? = some p →
        (lengthSq p.pos < R ^ 2 →
          (inject_supernova_energy E R gas)[i]? = some { p with
            u := p.u + E / total_mass
              (gas.filter fun q => decide (lengthSq q.pos < R ^ 2)) })
        ∧ (¬ lengthSq p.pos < R ^ 2 →
          (inject_supernova_energy E R gas)[i]? = some p) := by
  obtain ⟨p0, hp0, hp0in⟩ := hin
  have hmem : p0 ∈ gas.filter fun p => decide (lengthSq p.pos < R ^ 2) := by
    rw [List.mem_filter]
    exact ⟨hp0, by simpa using hp0in⟩
  refine ⟨?_, ?_, ?_⟩
  · unfold total_mass
    apply List.sum_pos
    · intro x hx
      obtain ⟨q, hq, rfl⟩ := List.mem_map.mp hx
      exact hm q (List.mem_of_mem_filter hq)
    · simp only [ne_eq, List.map_eq_nil_iff]
      exact List.ne_nil_of_mem hmem
  · simp [inject_supernova_energy]
  · intro i p hp
    constructor
    · intro hlt
      simp only [inject_supernova_energy, List.getElem?_map, hp,
        Option.map_some']
      rw [if_pos hlt]
    · intro hge
      simp only [inject_supernova_energy, List.getElem?_map, hp,
        Option.map_some']
      rw [if_neg hge]

/-- Witness for C8 on two concrete particles, one inside the region. -/
theorem inject_supernova_energy_frame_witness :
    0 < total_mass (wGas.filter fun p =>
      decide (lengthSq p.pos < (1 : ℚ) ^ 2))
    ∧ (inject_supernova_energy 2 1 wGas).length = wGas.length := by
  have hin : ∃ p ∈ wGas, lengthSq p.pos < (1 : ℚ) ^ 2 :=
    ⟨⟨1, 0, (0, 0, 0), (0, 0, 0)⟩, by simp [wGas], by norm_num [lengthSq]⟩
  have hm : ∀ p ∈ wGas, 0 < p.mass := by
    intro p hp
    simp only [wGas, List.mem_cons, List.mem_singleton] at hp
    rcases hp with rfl | rfl | h
    · norm_num
    · norm_num
    · simp at h
  have h := inject_supernova_energy_frame 2 1 wGas hin hm
  exact ⟨h.1, h.2.1⟩

/-- C9: for a non-empty list of strictly positive masses, the
normalized cumulative array `fm` of `plot_cdf` is nondecreasing, all
its values lie in `[0, 1]`, the normalizing maximum equals the sum of
all masses, and the final cumulative value is `1`. -/
theorem plot_cdf_fm_props (m : List ℚ) (hne : m ≠ [])
    (hpos : ∀ x ∈ m, 0 < x) :
    List.Chain' (· ≤ ·) (plot_cdf_fm m)
    ∧ (∀ y ∈ plot_cdf_fm m, 0 ≤ y ∧ y ≤ 1)
    ∧ pymax (cdf_accum 0 (m.insertionSort (· ≤ ·))) = m.sum
    ∧ (plot_cdf_fm m).getLast? = some 1 := by
  have hperm : (m.insertionSort (· ≤ ·)).Perm m := List.perm_insertionSort _ m
  have hsum : (m.insertionSort (· ≤ ·)).sum = m.sum := hperm.sum_eq
  have hnn : ∀ x ∈ m.insertionSort (· ≤ ·), 0 ≤ x :=
    fun x hx => le_of_lt (hpos x (hperm.mem_iff.mp hx))
  have hS : 0 < m.sum := List.sum_pos m hpos hne
  have hmax : pymax (cdf_accum 0 (m.insertionSort (· ≤ ·))) = m.sum := by
    apply le_antisymm
    · have hmem := pymax_mem (cdf_accum 0 (m.insertionSort (· ≤ ·)))
        (cdf_accum_ne_nil 0 _)
      have hb := cdf_accum_mem_bounds 0 _ hnn _ hmem
      calc pymax (cdf_accum 0 (m.insertionSort (· ≤ ·)))
          ≤ 0 + (m.insertionSort (· ≤ ·)).sum := hb.2
        _ = m.sum := by rw [hsum, zero_add]
    · apply le_pymax
      have hlast := cdf_accum_getLast 0 (m.insertionSort (· ≤ ·))
      have hmem : 0 + (m.insertionSort (· ≤ ·)).sum ∈
          cdf_accum 0 (m.insertionSort (· ≤ ·)) := by
        obtain ⟨hne2, hxeq⟩ := List.mem_getLast?_eq_getLast hlast
        rw [hxeq]
        exact List.getLast_mem hne2
      rw [hsum, zero_add] at hmem
      exact hmem
  have hfm : plot_cdf_fm m =
      (cdf_accum 0 (m.insertionSort (· ≤ ·))).map (· / m.sum) := by
    simp only [plot_cdf_fm]
    rw [hmax]
  refine ⟨?_, ?_, hmax, ?_⟩
  · rw [hfm, List.chain'_map]
    have hch := cdf_accum_chain 0 (m.insertionSort (· ≤ ·)) hnn
    apply List.Chain'.imp _ hch
    intro a b hab
    exact (div_le_div_iff_of_pos_right hS).mpr hab
  · rw [hfm]
    intro y hy
    obtain ⟨z, hz, rfl⟩ := List.mem_map.mp hy
    have hb := cdf_accum_mem_bounds 0 _ hnn z hz
    constructor
    · exact div_nonneg (by linarith [hb.1]) (le_of_lt hS)
    · rw [div_le_one hS]
      calc z ≤ 0 + (m.insertionSort (· ≤ ·)).sum := hb.2
        _ = m.sum := by rw [hsum, zero_add]
  · rw [hfm, List.getLast?_map, cdf_accum_getLast]
    rw [hsum, zero_add, Option.map_some']
    rw [div_self (ne_of_gt hS)]

/-- Witness for C9 on the concrete mass list `[2, 1]`. -/
theorem plot_cdf_fm_props_witness :
    List.Chain' (· ≤ ·) (plot_cdf_fm [2, 1])
    ∧ (plot_cdf_fm [2, 1]).getLast? = some 1 := by
  have hpos : ∀ x ∈ ([2, 1] : List ℚ), 0 < x := by
    intro x hx
    simp only [List.mem_cons, List.mem_singleton] at hx
    rcases hx with rfl | rfl | h
    · norm_num
    · norm_num
    · simp at h
  have h := plot_cdf_fm_props [2, 1] (by simp) hpos
  exact ⟨h.1, h.2.2.2⟩

/-- C10: the final SPH while-loop terminates (`sphLoopCount` is a total
function); from any nonnegative model time it runs at most 8
iterations, and from the actual loop-entry time of the notebook
(1 hour, after the preceding `evolve_model(1.0 | units.hour)`) it runs
exactly 7. -/
theorem sph_while_loop_terminates :
    (∀ t : ℚ, 0 ≤ t → sphLoopCount t ≤ 8) ∧ sphLoopCount 1 = 7 := by
  have hceil : ∀ t : ℚ,
      sphLoopCount t = (Int.ceil ((36 : ℚ) / 5 - t)).toNat :=
    fun t => sphLoopCount_formula _ t rfl
  constructor
  · intro t ht
    rw [hceil]
    have h1 : Int.ceil ((36 : ℚ) / 5 - t) ≤ Int.ceil ((36 : ℚ) / 5) :=
      Int.ceil_le_ceil (by linarith)
    have h2 : Int.ceil ((36 : ℚ) / 5) = 8 := by
      rw [Int.ceil_eq_iff]
      constructor <;> norm_num
    omega
  · rw [hceil]
    have h3 : Int.ceil ((36 : ℚ) / 5 - 1) = 7 := by
      rw [show (36 : ℚ) / 5 - 1 = 31 / 5 by norm_num]
      rw [Int.ceil_eq_iff]
      constructor <;> norm_num
    rw [h3]
    rfl

/-- Witness for C10 at the concrete model times 0 and 1 hour. -/
theorem sph_while_loop_terminates_witness :
    sphLoopCount 0 ≤ 8 ∧ sphLoopCount 1 = 7 :=
  ⟨sph_while_loop_terminates.1 0 le_rfl, sph_while_loop_terminates.2⟩

end AmuseTutorial
